import Mathlib

/-!
Verification of the GeoAttendance identity-verification core.

This file gives a shallow embedding of
`AttendanceManager.detect_and_mark` (app/attendance.py) and of the
per-face labelling loop of `FaceRecognition.detect_known_faces`
(src/recognizer/face_recognition_system.py), together with theorems
checking the specification's claims about the embedding matcher, the
confidence/pose gate and the bounded-retry decision engine.

Modelling conventions:
- distances are exact rationals (the floating-point values of the code
  are modelled by exact arithmetic);
- a detected face is modelled by the list of its distances to the
  gallery entries plus its (optional) eye-landmark point counts, since
  those are the only data the engine inspects;
- the frame source is a function from the attempt index to
  `Option (List Face)`; `none` models `cap.read()` returning `ret = False`;
- side effects (frame reads, `time.sleep(1)` calls, `cv2.imwrite`,
  `mark_attendance`, callback invocations) are recorded in an explicit
  `RunState`; the callback is modelled as always present;
- one distance list per face serves both the provisional labelling of
  `detect_known_faces` and the re-match inside `detect_and_mark`: the
  engine calls `detect_known_faces(frame, scale_factor=1.0)`, so both
  passes encode the identical image and see the same distances.
-/

/-- Python `int()` applied to an exact rational: truncation toward zero,
computed as truncating integer division of numerator by denominator. -/
def pyInt (q : ℚ) : ℤ := q.num.tdiv q.den

/-- Python's binary `min`: the second argument when it is strictly smaller. -/
def pyMin (a b : ℤ) : ℤ := if b < a then b else a

/-- Python's binary `max`: the second argument when it is strictly larger. -/
def pyMax (a b : ℤ) : ℤ := if a < b then b else a

/-- The gate formula `confidence = max(0, min(100, int((1 - distance) * 100)))`
(attendance.py, line 92). -/
def confidence (d : ℚ) : ℤ := pyMax 0 (pyMin 100 (pyInt ((1 - d) * 100)))

/-- The threshold `min_confidence = 50` (attendance.py, line 106). -/
def minConfidence : ℤ := 50

/-- The default `tolerance=0.6` of `detect_known_faces`. -/
def tolerance : ℚ := Rat.divInt 6 10

/-- Model of `np.argmin`: index of the first occurrence of the minimum
(0 on the empty list). -/
def argmin : List ℚ → Nat
  | [] => 0
  | x :: xs =>
    match xs with
    | [] => 0
    | _ :: _ => if xs.getD (argmin xs) 0 < x then argmin xs + 1 else 0

/-- The selection `best_match_index = np.argmin(face_distances)`
(both matching sites). -/
def best_match_index (dists : List ℚ) : Nat := argmin dists

/-- The reported `distance = face_distances[best_match_index]`
(attendance.py, line 89). -/
def matchDistance (dists : List ℚ) : ℚ := dists.getD (best_match_index dists) 0

/-- Provisional labelling of one detected face in `detect_known_faces`:
`name = "Unknown"`, replaced by `known_face_names[best_match_index]` only when
the best distance is strictly below the tolerance. -/
def bestName (names : List String) (dists : List ℚ) : String :=
  if dists.getD (best_match_index dists) 0 < tolerance then
    names.getD (best_match_index dists) "Unknown"
  else "Unknown"

/-- Sum of squared coordinate differences of two embeddings;
`face_recognition.face_distance` (NumPy's Euclidean norm of the difference)
is its square root. -/
def faceDistSq (a b : List ℚ) : ℚ := (List.zipWith (fun x y => (x - y) ^ 2) a b).sum

/-- Asserts that `d` is the Euclidean distance between embeddings `a` and `b`:
it is nonnegative and its square is `faceDistSq a b`. -/
def euclDistIs (a b : List ℚ) (d : ℝ) : Prop := 0 ≤ d ∧ d * d = (faceDistSq a b : ℝ)

/-- Eye landmark groups of one face, as point counts of
`face_landmarks[0]['left_eye']` and `face_landmarks[0]['right_eye']`. -/
structure Landmarks where
  leftEye : Nat
  rightEye : Nat

/-- One detected face: its distances to the gallery entries and its landmark
groups (`none` models `face_recognition.face_landmarks` returning no entry). -/
structure Face where
  dists : List ℚ
  landmarks : Option Landmarks

/-- Observable side effects of one run of `detect_and_mark`. -/
structure RunState where
  reads : Nat
  sleeps : Nat
  photos : Nat
  marks : List (String × String × ℤ)
  calls : List (Bool × String)

/-- Run parameters: the claimed identity and the loaded gallery. -/
structure Config where
  studentId : String
  studentName : String
  galleryNames : List String
  maxRetries : Nat

/-- Outcome of processing part of one frame: either a terminal return value of
`detect_and_mark` or fall-through to the rest of the loop. -/
inductive StepOut where
  | done (success : Bool) (msg : String) (st : RunState)
  | next (st : RunState)

deriving instance DecidableEq for Landmarks
deriving instance DecidableEq for Face
deriving instance DecidableEq for RunState
deriving instance DecidableEq for Config
deriving instance DecidableEq for StepOut

/-- The run state carried by a step outcome. -/
def StepOut.state : StepOut → RunState
  | .done _ _ st => st
  | .next st => st

def initState : RunState := ⟨0, 0, 0, [], []⟩

def captureFailMsg : String := "Failed to capture frame."

def notRecognizedMsg : String := "Face not recognized after maximum retries."

def cameraMsg : String := "Camera not started."

def poseMsg (attempt maxRetries : Nat) : String :=
  "Face not frontal enough (Attempt " ++ toString (attempt + 1) ++ "/" ++
    toString maxRetries ++ "). Please adjust position."

def successMsg (studentName : String) (conf : ℤ) (attempt : Nat) : String :=
  "Attendance marked for " ++ studentName ++ " (Confidence: " ++ toString conf ++
    "% | Attempt " ++ toString (attempt + 1) ++ ")"

def retryMsg (conf : ℤ) (attempt maxRetries : Nat) : String :=
  "Confidence too low (" ++ toString conf ++ "%). Retrying... (" ++
    toString (attempt + 2) ++ "/" ++ toString maxRetries ++ ")"

def lowConfFinalMsg (conf minConf : ℤ) : String :=
  "Face recognized but confidence too low (" ++ toString conf ++
    "%). Minimum required: " ++ toString minConf ++ "%. No more retries."

/-- Record one callback invocation. -/
def addCall (st : RunState) (ok : Bool) (msg : String) : RunState :=
  { st with calls := st.calls ++ [(ok, msg)] }

/-- Body of the innermost loop of `detect_and_mark` for one face location `i`
(attendance.py, lines 84-133): re-match the face's encoding against the
gallery, convert the best distance to a confidence, check the eye landmarks,
and accept / retry / fail on the confidence threshold. -/
def gateFace (cfg : Config) (attempt : Nat) (f : Face) (st : RunState) : StepOut :=
  let conf := confidence (matchDistance f.dists)
  match f.landmarks with
  | none => .next st
  | some lm =>
    if lm.leftEye < 6 ∨ lm.rightEye < 6 then
      .next (addCall st false (poseMsg attempt cfg.maxRetries))
    else if minConfidence ≤ conf then
      .done true (successMsg cfg.studentName conf attempt)
        (addCall
          { st with photos := st.photos + 1,
                    marks := st.marks ++ [(cfg.studentId, cfg.studentName, conf)] }
          true (successMsg cfg.studentName conf attempt))
    else if attempt < cfg.maxRetries - 1 then
      .next { addCall st false (retryMsg conf attempt cfg.maxRetries) with
              sleeps := st.sleeps + 1 }
    else
      .done false (lowConfFinalMsg conf minConfidence)
        (addCall st false (lowConfFinalMsg conf minConfidence))

/-- The inner `for i, ... in enumerate(face_locations)` loop of
`detect_and_mark`: each face location is gated when the guard
`name == student_name` holds, where `name` is the *outer* loop's variable. -/
def scanFaces (cfg : Config) (name : String) (attempt : Nat) :
    List Face → RunState → StepOut
  | [], st => .next st
  | f :: rest, st =>
    if name = cfg.studentName then
      match gateFace cfg attempt f st with
      | .done s m st' => .done s m st'
      | .next st' => scanFaces cfg name attempt rest st'
    else scanFaces cfg name attempt rest st

/-- The outer `for name in face_names` loop of `detect_and_mark`: for every
provisional name equal to the claimed identity, scan all face locations. -/
def nameLoop (cfg : Config) (attempt : Nat) (faces : List Face) :
    List String → RunState → StepOut
  | [], st => .next st
  | n :: rest, st =>
    if n = cfg.studentName then
      match scanFaces cfg n attempt faces st with
      | .done s m st' => .done s m st'
      | .next st' => nameLoop cfg attempt faces rest st'
    else nameLoop cfg attempt faces rest st

/-- Processing of one successfully captured frame: compute the provisional
names with `detect_known_faces` and run the nested loops. -/
def processFrame (cfg : Config) (attempt : Nat) (faces : List Face)
    (st : RunState) : StepOut :=
  nameLoop cfg attempt faces (faces.map (fun f => bestName cfg.galleryNames f.dists)) st

/-- The `for attempt in range(self.max_retries)` loop of `detect_and_mark`:
`remaining` counts the iterations still to run, `attempt` is the current
0-based attempt index. -/
def detectLoop (cfg : Config) (frames : Nat → Option (List Face)) :
    Nat → Nat → RunState → (Bool × String) × RunState
  | 0, _, st => ((false, notRecognizedMsg), addCall st false notRecognizedMsg)
  | remaining + 1, attempt, st =>
    match frames attempt with
    | none =>
      ((false, captureFailMsg),
        addCall { st with reads := st.reads + 1 } false captureFailMsg)
    | some faces =>
      match processFrame cfg attempt faces { st with reads := st.reads + 1 } with
      | .done s m st' => ((s, m), st')
      | .next st' => detectLoop cfg frames remaining (attempt + 1) st'

/-- The full `AttendanceManager.detect_and_mark`, with the camera-open precheck. -/
def detect_and_mark (cfg : Config) (capOpened : Bool)
    (frames : Nat → Option (List Face)) : (Bool × String) × RunState :=
  if capOpened then detectLoop cfg frames cfg.maxRetries 0 initState
  else ((false, cameraMsg), addCall initState false cameraMsg)

/-- Unguarded scan of all face locations, used to state that the inner guard
of `scanFaces` is vacuous whenever the outer loop's name matched. -/
def gateAll (cfg : Config) (attempt : Nat) : List Face → RunState → StepOut
  | [], st => .next st
  | f :: rest, st =>
    match gateFace cfg attempt f st with
    | .done s m st' => .done s m st'
    | .next st' => gateAll cfg attempt rest st'

/-- Spec-side confidence formula for the amended claim C1: clamp to `[0, 100]`
of the scaled value truncated toward zero (floor for nonnegative values,
ceiling for negative ones). -/
def specConfidenceTrunc (d : ℚ) : ℤ :=
  max 0 (min 100
    (if 0 ≤ (1 - d) * 100 then Int.floor ((1 - d) * 100) else Int.ceil ((1 - d) * 100)))

example : argmin [3, 1, 2] = 1 := by decide
example : argmin [3, 1, 1] = 1 := by decide
example : argmin [(5 : ℚ)] = 0 := by decide
example : confidence (Rat.divInt 3 10) = 70 := by with_unfolding_all decide
example : confidence (Rat.divInt 301 1000) = 69 := by with_unfolding_all decide
example : confidence (Rat.divInt 15 10) = 0 := by with_unfolding_all decide
example : bestName ["alice"] [Rat.divInt 7 10] = "Unknown" := by decide
example : bestName ["alice"] [Rat.divInt 1 2] = "alice" := by decide

/-! ### Properties of `argmin` (the `np.argmin` model) -/

lemma argmin_nil : argmin [] = 0 := rfl

lemma argmin_singleton (x : ℚ) : argmin [x] = 0 := rfl

lemma argmin_cons₂ (x y : ℚ) (ys : List ℚ) :
    argmin (x :: y :: ys) =
      if (y :: ys).getD (argmin (y :: ys)) 0 < x then argmin (y :: ys) + 1 else 0 := rfl

lemma argmin_lt_length : ∀ (l : List ℚ), l ≠ [] → argmin l < l.length := by
  intro l
  induction l with
  | nil => intro h; exact absurd rfl h
  | cons x xs ih =>
    intro _
    cases xs with
    | nil => simp [argmin_singleton]
    | cons y ys =>
      rw [argmin_cons₂]
      split
      case isTrue hlt =>
        have h := ih (by simp)
        simp only [List.length_cons] at h ⊢
        omega
      case isFalse hge => simp

lemma argmin_le_getD : ∀ (l : List ℚ) (j : Nat), j < l.length →
    l.getD (argmin l) 0 ≤ l.getD j 0 := by
  intro l
  induction l with
  | nil => intro j hj; simp at hj
  | cons x xs ih =>
    intro j hj
    cases xs with
    | nil =>
      have hj0 : j = 0 := by simpa using Nat.lt_one_iff.mp (by simpa using hj)
      subst hj0
      simp [argmin_singleton]
    | cons y ys =>
      rw [argmin_cons₂]
      split
      case isTrue hlt =>
        cases j with
        | zero => simpa using le_of_lt hlt
        | succ j' =>
          have hj' : j' < (y :: ys).length := by simpa using hj
          simpa using ih j' hj'
      case isFalse hge =>
        cases j with
        | zero => simp
        | succ j' =>
          have hj' : j' < (y :: ys).length := by simpa using hj
          have h1 : (y :: ys).getD (argmin (y :: ys)) 0 ≤ (y :: ys).getD j' 0 := ih j' hj'
          have h2 : x ≤ (y :: ys).getD (argmin (y :: ys)) 0 := le_of_not_lt hge
          simpa using le_trans h2 h1

lemma argmin_lt_getD_of_lt : ∀ (l : List ℚ) (j : Nat), j < argmin l →
    l.getD (argmin l) 0 < l.getD j 0 := by
  intro l
  induction l with
  | nil => intro j hj; simp [argmin_nil] at hj
  | cons x xs ih =>
    intro j hj
    cases xs with
    | nil => simp [argmin_singleton] at hj
    | cons y ys =>
      rw [argmin_cons₂] at hj ⊢
      split
      case isTrue hlt =>
        rw [if_pos hlt] at hj
        cases j with
        | zero => simpa using hlt
        | succ j' =>
          have hj'' : j' < argmin (y :: ys) := Nat.lt_of_succ_lt_succ hj
          simpa using ih j' hj''
      case isFalse hge =>
        rw [if_neg hge] at hj
        simp at hj

lemma getD_zero_eq_getElem (l : List ℚ) (n : Nat) (h : n < l.length) :
    l.getD n 0 = l[n] := by
  simp [List.getD_eq_getElem?_getD, List.getElem?_eq_getElem h]

lemma argmin_eq_of_strict (l : List ℚ) (k : Nat) (hk : k < l.length)
    (h : ∀ j, j < l.length → j ≠ k → l.getD k 0 < l.getD j 0) : argmin l = k := by
  by_contra hne
  have hlen : argmin l < l.length := argmin_lt_length l (by rintro rfl; simp at hk)
  have h1 : l.getD k 0 < l.getD (argmin l) 0 := h (argmin l) hlen hne
  have h2 : l.getD (argmin l) 0 ≤ l.getD k 0 := argmin_le_getD l k hk
  exact absurd (lt_of_le_of_lt h2 h1) (lt_irrefl _)

lemma argmin_le_of_attains (l : List ℚ) (j : Nat) (hj : j < l.length)
    (h : l.getD j 0 ≤ l.getD (argmin l) 0) : argmin l ≤ j := by
  by_contra hlt
  have := argmin_lt_getD_of_lt l j (Nat.lt_of_not_le hlt)
  exact absurd (lt_of_le_of_lt h this) (lt_irrefl _)

lemma matchDistance_mem (dists : List ℚ) (h : dists ≠ []) :
    matchDistance dists ∈ dists := by
  have hlt := argmin_lt_length dists h
  rw [matchDistance, best_match_index, getD_zero_eq_getElem dists _ hlt]
  exact List.getElem_mem hlt

lemma matchDistance_le (dists : List ℚ) (x : ℚ) (hx : x ∈ dists) :
    matchDistance dists ≤ x := by
  obtain ⟨n, hn, rfl⟩ := List.mem_iff_getElem.mp hx
  rw [matchDistance, best_match_index, ← getD_zero_eq_getElem dists n hn]
  exact argmin_le_getD dists n hn

/-! ### The clamp functions and the truncation bridge -/

lemma pyMax_eq_max (a b : ℤ) : pyMax a b = max a b := by
  rw [pyMax]; split <;> omega

lemma pyMin_eq_min (a b : ℤ) : pyMin a b = min a b := by
  rw [pyMin]; split <;> omega

lemma pyInt_eq_floor (q : ℚ) (h : 0 ≤ q) : pyInt q = Int.floor q := by
  rw [pyInt, Rat.floor_def,
    Int.tdiv_eq_ediv (Rat.num_nonneg.mpr h) (Int.natCast_nonneg q.den)]

lemma pyInt_eq_ceil (q : ℚ) (h : q < 0) : pyInt q = Int.ceil q := by
  have hceil : (⌈q⌉ : ℤ) = -⌊-q⌋ := by
    conv_lhs => rw [← neg_neg q]
    rw [Int.ceil_neg]
  have hnum : ¬(0 ≤ q.num) := fun hc => absurd (Rat.num_nonneg.mp hc) (not_le.mpr h)
  have hn : 0 ≤ -q.num := by omega
  rw [pyInt, hceil, Rat.floor_def, Rat.neg_num, Rat.neg_den,
    ← Int.tdiv_eq_ediv hn (Int.natCast_nonneg q.den), Int.neg_tdiv, neg_neg]

/-! ### Message facts -/

/-- Holds when `t` occurs as a substring of `m`. -/
def containsStr (m t : String) : Prop := ∃ p s : String, m = p ++ t ++ s

lemma containsStr_of_middle (p t s : String) : containsStr (p ++ t ++ s) t := ⟨p, s, rfl⟩

lemma successMsg_contains_conf (n : String) (c : ℤ) (a : Nat) :
    containsStr (successMsg n c a) (toString c) :=
  ⟨"Attendance marked for " ++ n ++ " (Confidence: ",
    "% | Attempt " ++ toString (a + 1) ++ ")",
    by simp [successMsg, String.append_assoc]⟩

lemma successMsg_contains_attempt (n : String) (c : ℤ) (a : Nat) :
    containsStr (successMsg n c a) (toString (a + 1)) :=
  ⟨"Attendance marked for " ++ n ++ " (Confidence: " ++ toString c ++ "% | Attempt ",
    ")", by simp [successMsg, String.append_assoc]⟩

lemma lowConfFinalMsg_contains_conf (c m : ℤ) :
    containsStr (lowConfFinalMsg c m) (toString c) :=
  ⟨"Face recognized but confidence too low (",
    "%). Minimum required: " ++ toString m ++ "%. No more retries.",
    by simp [lowConfFinalMsg, String.append_assoc]⟩

lemma lowConfFinalMsg_contains_min (c m : ℤ) :
    containsStr (lowConfFinalMsg c m) (toString m) :=
  ⟨"Face recognized but confidence too low (" ++ toString c ++ "%). Minimum required: ",
    "%. No more retries.", by simp [lowConfFinalMsg, String.append_assoc]⟩

lemma lowConfFinalMsg_contains_noRetries (c m : ℤ) :
    containsStr (lowConfFinalMsg c m) "No more retries." :=
  ⟨"Face recognized but confidence too low (" ++ toString c ++ "%). Minimum required: "
      ++ toString m ++ "%. ",
    "", by simp [lowConfFinalMsg, String.append_assoc]⟩

lemma poseMsg_contains_attempt (a m : Nat) :
    containsStr (poseMsg a m) (toString (a + 1)) :=
  ⟨"Face not frontal enough (Attempt ",
    "/" ++ toString m ++ "). Please adjust position.",
    by simp [poseMsg, String.append_assoc]⟩

lemma poseMsg_contains_budget (a m : Nat) :
    containsStr (poseMsg a m) (toString m) :=
  ⟨"Face not frontal enough (Attempt " ++ toString (a + 1) ++ "/",
    "). Please adjust position.", by simp [poseMsg, String.append_assoc]⟩

lemma captureFailMsg_ne_notRecognizedMsg : captureFailMsg ≠ notRecognizedMsg := by decide

lemma retryMsg_ne_captureFailMsg (c : ℤ) (a m : Nat) : retryMsg c a m ≠ captureFailMsg := by
  intro he
  have hlen := congrArg String.length he
  have h1 : ("Confidence too low (" : String).length = 20 := rfl
  have h2 : ("%). Retrying... (" : String).length = 17 := rfl
  have h3 : ("/" : String).length = 1 := rfl
  have h4 : (")" : String).length = 1 := rfl
  have h5 : captureFailMsg.length = 24 := rfl
  simp only [retryMsg, String.length_append, h1, h2, h3, h4, h5] at hlen
  omega

lemma lowConfFinalMsg_ne_captureFailMsg (c m : ℤ) : lowConfFinalMsg c m ≠ captureFailMsg := by
  intro he
  have hlen := congrArg String.length he
  have h1 : ("Face recognized but confidence too low (" : String).length = 40 := rfl
  have h2 : ("%). Minimum required: " : String).length = 22 := rfl
  have h3 : ("%. No more retries." : String).length = 19 := rfl
  have h5 : captureFailMsg.length = 24 := rfl
  simp only [lowConfFinalMsg, String.length_append, h1, h2, h3, h5] at hlen
  omega

lemma poseMsg_ne_captureFailMsg (a m : Nat) : poseMsg a m ≠ captureFailMsg := by
  intro he
  have hlen := congrArg String.length he
  have h1 : ("Face not frontal enough (Attempt " : String).length = 33 := rfl
  have h2 : ("/" : String).length = 1 := rfl
  have h3 : ("). Please adjust position." : String).length = 26 := rfl
  have h5 : captureFailMsg.length = 24 := rfl
  simp only [poseMsg, String.length_append, h1, h2, h3, h5] at hlen
  omega

/-! ### Behaviour of the gate on a single face -/

lemma gateFace_of_no_landmarks (cfg : Config) (a : Nat) (f : Face) (st : RunState)
    (h : f.landmarks = none) : gateFace cfg a f st = .next st := by
  simp [gateFace, h]

lemma gateFace_of_pose (cfg : Config) (a : Nat) (f : Face) (st : RunState)
    (lm : Landmarks) (h : f.landmarks = some lm) (he : lm.leftEye < 6 ∨ lm.rightEye < 6) :
    gateFace cfg a f st = .next (addCall st false (poseMsg a cfg.maxRetries)) := by
  simp [gateFace, h, if_pos he]

lemma gateFace_of_accept (cfg : Config) (a : Nat) (f : Face) (st : RunState)
    (lm : Landmarks) (h : f.landmarks = some lm)
    (he : ¬(lm.leftEye < 6 ∨ lm.rightEye < 6))
    (hc : minConfidence ≤ confidence (matchDistance f.dists)) :
    gateFace cfg a f st =
      .done true (successMsg cfg.studentName (confidence (matchDistance f.dists)) a)
        (addCall
          { st with photos := st.photos + 1,
                    marks := st.marks ++
                      [(cfg.studentId, cfg.studentName, confidence (matchDistance f.dists))] }
          true (successMsg cfg.studentName (confidence (matchDistance f.dists)) a)) := by
  simp [gateFace, h, if_neg he, if_pos hc]

lemma gateFace_of_retry (cfg : Config) (a : Nat) (f : Face) (st : RunState)
    (lm : Landmarks) (h : f.landmarks = some lm)
    (he : ¬(lm.leftEye < 6 ∨ lm.rightEye < 6))
    (hc : ¬ minConfidence ≤ confidence (matchDistance f.dists))
    (ha : a < cfg.maxRetries - 1) :
    gateFace cfg a f st =
      .next { addCall st false
                (retryMsg (confidence (matchDistance f.dists)) a cfg.maxRetries) with
              sleeps := st.sleeps + 1 } := by
  simp [gateFace, h, if_neg he, if_neg hc, if_pos ha]

lemma gateFace_of_exhaust (cfg : Config) (a : Nat) (f : Face) (st : RunState)
    (lm : Landmarks) (h : f.landmarks = some lm)
    (he : ¬(lm.leftEye < 6 ∨ lm.rightEye < 6))
    (hc : ¬ minConfidence ≤ confidence (matchDistance f.dists))
    (ha : ¬ a < cfg.maxRetries - 1) :
    gateFace cfg a f st =
      .done false (lowConfFinalMsg (confidence (matchDistance f.dists)) minConfidence)
        (addCall st false
          (lowConfFinalMsg (confidence (matchDistance f.dists)) minConfidence)) := by
  simp [gateFace, h, if_neg he, if_neg hc, if_neg ha]

/-! ### Frame-level behaviour -/

lemma nameLoop_of_no_match (cfg : Config) (a : Nat) (faces : List Face) :
    ∀ (names : List String) (st : RunState), (∀ n ∈ names, n ≠ cfg.studentName) →
      nameLoop cfg a faces names st = .next st := by
  intro names
  induction names with
  | nil => intro st _; rfl
  | cons n rest ih =>
    intro st h
    have hn : n ≠ cfg.studentName := h n (by simp)
    simp only [nameLoop, if_neg hn]
    exact ih st (fun m hm => h m (by simp [hm]))

lemma processFrame_of_no_match (cfg : Config) (a : Nat) (faces : List Face)
    (st : RunState) (h : ∀ f ∈ faces, bestName cfg.galleryNames f.dists ≠ cfg.studentName) :
    processFrame cfg a faces st = .next st := by
  apply nameLoop_of_no_match
  intro n hn
  obtain ⟨f, hf, rfl⟩ := List.mem_map.mp hn
  exact h f hf

lemma processFrame_single (cfg : Config) (a : Nat) (f : Face) (st : RunState)
    (h : bestName cfg.galleryNames f.dists = cfg.studentName) :
    processFrame cfg a [f] st = gateFace cfg a f st := by
  simp only [processFrame, List.map, nameLoop, if_pos h, scanFaces, if_pos h]
  cases gateFace cfg a f st with
  | done s m st' => simp [scanFaces, nameLoop]
  | next st' => simp [scanFaces, nameLoop]

/-! ### State invariants: at most one attendance record per run -/

lemma gateFace_next_state (cfg : Config) (a : Nat) (f : Face) (st st' : RunState)
    (h : gateFace cfg a f st = .next st') :
    st'.marks = st.marks ∧ st'.photos = st.photos := by
  rcases hf : f.landmarks with _ | lm
  · rw [gateFace_of_no_landmarks cfg a f st hf] at h
    cases h
    exact ⟨rfl, rfl⟩
  · by_cases he : lm.leftEye < 6 ∨ lm.rightEye < 6
    · rw [gateFace_of_pose cfg a f st lm hf he] at h
      cases h
      simp [addCall]
    · by_cases hc : minConfidence ≤ confidence (matchDistance f.dists)
      · rw [gateFace_of_accept cfg a f st lm hf he hc] at h
        exact StepOut.noConfusion h
      · by_cases ha : a < cfg.maxRetries - 1
        · rw [gateFace_of_retry cfg a f st lm hf he hc ha] at h
          cases h
          simp [addCall]
        · rw [gateFace_of_exhaust cfg a f st lm hf he hc ha] at h
          exact StepOut.noConfusion h

lemma gateFace_state_le (cfg : Config) (a : Nat) (f : Face) (st : RunState) :
    (gateFace cfg a f st).state.marks.length ≤ st.marks.length + 1 ∧
    (gateFace cfg a f st).state.photos ≤ st.photos + 1 := by
  rcases hf : f.landmarks with _ | lm
  · rw [gateFace_of_no_landmarks cfg a f st hf]
    simp [StepOut.state]
  · by_cases he : lm.leftEye < 6 ∨ lm.rightEye < 6
    · rw [gateFace_of_pose cfg a f st lm hf he]
      simp [StepOut.state, addCall]
    · by_cases hc : minConfidence ≤ confidence (matchDistance f.dists)
      · rw [gateFace_of_accept cfg a f st lm hf he hc]
        simp [StepOut.state, addCall]
      · by_cases ha : a < cfg.maxRetries - 1
        · rw [gateFace_of_retry cfg a f st lm hf he hc ha]
          simp [StepOut.state, addCall]
        · rw [gateFace_of_exhaust cfg a f st lm hf he hc ha]
          simp [StepOut.state, addCall]

lemma scanFaces_next_state (cfg : Config) (name : String) (a : Nat) :
    ∀ (faces : List Face) (st st' : RunState),
      scanFaces cfg name a faces st = .next st' →
      st'.marks = st.marks ∧ st'.photos = st.photos := by
  intro faces
  induction faces with
  | nil =>
    intro st st' h
    cases h
    exact ⟨rfl, rfl⟩
  | cons f rest ih =>
    intro st st' h
    simp only [scanFaces] at h
    by_cases hg : name = cfg.studentName
    · rw [if_pos hg] at h
      cases hgf : gateFace cfg a f st with
      | done s m st₁ => rw [hgf] at h; exact StepOut.noConfusion h
      | next st₁ =>
        rw [hgf] at h
        have h1 := gateFace_next_state cfg a f st st₁ hgf
        have h2 := ih st₁ st' h
        exact ⟨h2.1.trans h1.1, h2.2.trans h1.2⟩
    · rw [if_neg hg] at h
      exact ih st st' h

lemma scanFaces_state_le (cfg : Config) (name : String) (a : Nat) :
    ∀ (faces : List Face) (st : RunState),
      (scanFaces cfg name a faces st).state.marks.length ≤ st.marks.length + 1 ∧
      (scanFaces cfg name a faces st).state.photos ≤ st.photos + 1 := by
  intro faces
  induction faces with
  | nil => intro st; simp [scanFaces, StepOut.state]
  | cons f rest ih =>
    intro st
    simp only [scanFaces]
    by_cases hg : name = cfg.studentName
    · rw [if_pos hg]
      cases hgf : gateFace cfg a f st with
      | done s m st₁ =>
        have := gateFace_state_le cfg a f st
        rw [hgf] at this
        simpa [StepOut.state] using this
      | next st₁ =>
        have h1 := gateFace_next_state cfg a f st st₁ hgf
        have h2 := ih st₁
        exact ⟨by rw [h1.1] at h2; exact h2.1, by rw [h1.2] at h2; exact h2.2⟩
    · rw [if_neg hg]
      exact ih st

lemma nameLoop_next_state (cfg : Config) (a : Nat) (faces : List Face) :
    ∀ (names : List String) (st st' : RunState),
      nameLoop cfg a faces names st = .next st' →
      st'.marks = st.marks ∧ st'.photos = st.photos := by
  intro names
  induction names with
  | nil =>
    intro st st' h
    cases h
    exact ⟨rfl, rfl⟩
  | cons n rest ih =>
    intro st st' h
    simp only [nameLoop] at h
    by_cases hg : n = cfg.studentName
    · rw [if_pos hg] at h
      cases hsf : scanFaces cfg n a faces st with
      | done s m st₁ => rw [hsf] at h; exact StepOut.noConfusion h
      | next st₁ =>
        rw [hsf] at h
        have h1 := scanFaces_next_state cfg n a faces st st₁ hsf
        have h2 := ih st₁ st' h
        exact ⟨h2.1.trans h1.1, h2.2.trans h1.2⟩
    · rw [if_neg hg] at h
      exact ih st st' h

lemma nameLoop_state_le (cfg : Config) (a : Nat) (faces : List Face) :
    ∀ (names : List String) (st : RunState),
      (nameLoop cfg a faces names st).state.marks.length ≤ st.marks.length + 1 ∧
      (nameLoop cfg a faces names st).state.photos ≤ st.photos + 1 := by
  intro names
  induction names with
  | nil => intro st; simp [nameLoop, StepOut.state]
  | cons n rest ih =>
    intro st
    simp only [nameLoop]
    by_cases hg : n = cfg.studentName
    · rw [if_pos hg]
      cases hsf : scanFaces cfg n a faces st with
      | done s m st₁ =>
        have := scanFaces_state_le cfg n a faces st
        rw [hsf] at this
        simpa [StepOut.state] using this
      | next st₁ =>
        have h1 := scanFaces_next_state cfg n a faces st st₁ hsf
        have h2 := ih st₁
        exact ⟨by rw [h1.1] at h2; exact h2.1, by rw [h1.2] at h2; exact h2.2⟩
    · rw [if_neg hg]
      exact ih st

lemma processFrame_next_state (cfg : Config) (a : Nat) (faces : List Face)
    (st st' : RunState) (h : processFrame cfg a faces st = .next st') :
    st'.marks = st.marks ∧ st'.photos = st.photos := by
  simp only [processFrame] at h
  exact nameLoop_next_state cfg a faces _ st st' h

lemma processFrame_state_le (cfg : Config) (a : Nat) (faces : List Face) (st : RunState) :
    (processFrame cfg a faces st).state.marks.length ≤ st.marks.length + 1 ∧
    (processFrame cfg a faces st).state.photos ≤ st.photos + 1 := by
  simp only [processFrame]
  exact nameLoop_state_le cfg a faces _ st

lemma detectLoop_state_le (cfg : Config) (frames : Nat → Option (List Face)) :
    ∀ (remaining attempt : Nat) (st : RunState),
      (detectLoop cfg frames remaining attempt st).2.marks.length ≤ st.marks.length + 1 ∧
      (detectLoop cfg frames remaining attempt st).2.photos ≤ st.photos + 1 := by
  intro remaining
  induction remaining with
  | zero => intro a st; simp [detectLoop, addCall]
  | succ r ih =>
    intro a st
    simp only [detectLoop]
    cases hf : frames a with
    | none => simp [addCall]
    | some faces =>
      cases hpf : processFrame cfg a faces { st with reads := st.reads + 1 } with
      | done s m st₁ =>
        simp only [hpf]
        have h1 := processFrame_state_le cfg a faces { st with reads := st.reads + 1 }
        rw [hpf] at h1
        simpa [StepOut.state] using h1
      | next st₁ =>
        simp only [hpf]
        have h1 := processFrame_next_state cfg a faces
          { st with reads := st.reads + 1 } st₁ hpf
        have hm : st₁.marks = st.marks := by simpa using h1.1
        have hp : st₁.photos = st.photos := by simpa using h1.2
        have h2 := ih (a + 1) st₁
        refine ⟨?_, ?_⟩
        · simpa [hm] using h2.1
        · simpa [hp] using h2.2

/-! ### Runs in which no frame ever matches the claimed identity -/

lemma detectLoop_no_match (cfg : Config) (frames : Nat → Option (List Face)) :
    ∀ (remaining attempt : Nat) (st : RunState),
      (∀ i, attempt ≤ i → i < attempt + remaining →
        ∃ fs, frames i = some fs ∧
          ∀ f ∈ fs, bestName cfg.galleryNames f.dists ≠ cfg.studentName) →
      detectLoop cfg frames remaining attempt st =
        ((false, notRecognizedMsg),
          addCall { st with reads := st.reads + remaining } false notRecognizedMsg) := by
  intro remaining
  induction remaining with
  | zero =>
    intro a st _
    simp [detectLoop]
  | succ r ih =>
    intro a st h
    obtain ⟨fs, hfs, hno⟩ := h a (le_refl a) (by omega)
    simp only [detectLoop, hfs]
    simp only [processFrame_of_no_match cfg a fs { st with reads := st.reads + 1 } hno]
    rw [ih (a + 1) { st with reads := st.reads + 1 }
      (fun i hi1 hi2 => h i (by omega) (by omega))]
    have harith : st.reads + 1 + r = st.reads + (r + 1) := by omega
    simp [harith]

/-! ### Claims -/

lemma faceDistSq_self (v : List ℚ) : faceDistSq v v = 0 := by
  induction v with
  | nil => rfl
  | cons x xs ih =>
    simp only [faceDistSq, List.zipWith_cons_cons, List.sum_cons] at ih ⊢
    simp [ih, sub_self]

set_option maxRecDepth 8000 in
/-- C1 (counterexample): at distance 301/1000 the code computes confidence 69
(truncation toward zero via `int()`), while the claimed formula
`clamp(round((1 - d) * 100), 0, 100)` gives 70, so the two disagree. -/
theorem confidence_not_round_to_nearest :
    confidence (Rat.divInt 301 1000) = 69 ∧
    max 0 (min 100 (round ((1 - Rat.divInt 301 1000) * 100))) = 70 ∧
    confidence (Rat.divInt 301 1000) ≠
      max 0 (min 100 (round ((1 - Rat.divInt 301 1000) * 100))) := by
  refine ⟨by with_unfolding_all decide, ?_, ?_⟩
  · have h : ((1 : ℚ) - Rat.divInt 301 1000) * 100 = Rat.divInt 699 10 := by
      with_unfolding_all decide
    rw [h, round_eq]
    have h2 : (Rat.divInt 699 10 : ℚ) + 1 / 2 = Rat.divInt 704 10 := by
      rw [Rat.divInt_eq_div, Rat.divInt_eq_div]
      norm_num
    rw [h2]
    have h3 : Int.floor (Rat.divInt 704 10 : ℚ) = 70 := by decide
    rw [h3]
    decide
  · intro hcontra
    have h1 : confidence (Rat.divInt 301 1000) = 69 := by with_unfolding_all decide
    have h2 : ((1 : ℚ) - Rat.divInt 301 1000) * 100 = Rat.divInt 699 10 := by
      with_unfolding_all decide
    rw [h1, h2, round_eq] at hcontra
    have h3 : (Rat.divInt 699 10 : ℚ) + 1 / 2 = Rat.divInt 704 10 := by
      rw [Rat.divInt_eq_div, Rat.divInt_eq_div]
      norm_num
    rw [h3, show Int.floor (Rat.divInt 704 10 : ℚ) = 70 from by decide] at hcontra
    exact absurd hcontra (by decide)

/-- C1 (amended): for every distance `d`, the confidence computed by the gate
equals `clamp(trunc((1 - d) * 100), 0, 100)` where `trunc` rounds *toward
zero* (floor for nonnegative arguments, ceiling for negative ones), not to
the nearest integer. -/
theorem confidence_eq_clamp_trunc : ∀ d : ℚ, confidence d = specConfidenceTrunc d := by
  intro d
  rw [confidence, specConfidenceTrunc, pyMax_eq_max, pyMin_eq_min]
  by_cases h : 0 ≤ (1 - d) * 100
  · rw [if_pos h, pyInt_eq_floor _ h]
  · rw [if_neg h, pyInt_eq_ceil _ (lt_of_not_le h)]

/-- C9: for every distance `d ≥ 0` the computed confidence lies in `[0, 100]`;
the squared Euclidean distance of an embedding to itself is `0`, hence the
Euclidean distance of a probe equal to a gallery entry is `0`; and the
confidence at distance `0` is exactly `100`. -/
theorem confidence_range_and_exact_match :
    (∀ d : ℚ, 0 ≤ d → 0 ≤ confidence d ∧ confidence d ≤ 100) ∧
    (∀ v : List ℚ, faceDistSq v v = 0) ∧
    (∀ (v : List ℚ) (dist : ℝ), euclDistIs v v dist → dist = 0) ∧
    confidence 0 = 100 := by
  refine ⟨?_, faceDistSq_self, ?_, by with_unfolding_all decide⟩
  · intro d _
    rw [confidence, pyMax_eq_max, pyMin_eq_min]
    constructor
    · exact le_max_left 0 _
    · exact max_le (by omega) (min_le_left _ _)
  · intro v dist hd
    obtain ⟨h0, hsq⟩ := hd
    rw [faceDistSq_self v] at hsq
    exact mul_self_eq_zero.mp (by exact_mod_cast hsq)

/-- C9 (witness): instantiation at distance 2, the embedding `[1, 2]` and
Euclidean distance 0. -/
theorem confidence_range_and_exact_match_witness :
    (0 ≤ confidence 2 ∧ confidence 2 ≤ 100) ∧
    faceDistSq [(1 : ℚ), 2] [1, 2] = 0 ∧
    (0 : ℝ) = 0 ∧ confidence 0 = 100 := by
  have h := confidence_range_and_exact_match
  exact ⟨h.1 2 (by decide), h.2.1 [1, 2],
    h.2.2.1 [1, 2] 0 ⟨le_refl 0, by simp [faceDistSq]⟩, h.2.2.2⟩

/-- C8: the matcher's `best_match_index` (the `np.argmin` of the distance
list) selects the entry whose distance is strictly smaller than all others,
and on ties it selects the smallest (first-encountered) index. -/
theorem best_match_index_strict_and_ties :
    (∀ (dists : List ℚ) (k : Nat), k < dists.length →
      (∀ j, j < dists.length → j ≠ k → dists.getD k 0 < dists.getD j 0) →
      best_match_index dists = k) ∧
    (∀ (dists : List ℚ) (j : Nat), j < dists.length →
      dists.getD j 0 ≤ dists.getD (best_match_index dists) 0 →
      best_match_index dists ≤ j) := by
  constructor
  · intro dists k hk hstrict
    exact argmin_eq_of_strict dists k hk hstrict
  · intro dists j hj hle
    exact argmin_le_of_attains dists j hj hle

/-- C8 (witness): on `[3, 1, 2]` the strictly smallest entry 1 at index 1 is
selected; on `[3, 1, 1]` the tie between indices 1 and 2 is broken toward
index 1, so the selected index is at most 2. -/
theorem best_match_index_strict_and_ties_witness :
    best_match_index [(3 : ℚ), 1, 2] = 1 ∧ best_match_index [(3 : ℚ), 1, 1] ≤ 2 := by
  have h := best_match_index_strict_and_ties
  exact ⟨h.1 [(3 : ℚ), 1, 2] 1 (by decide) (by decide),
    h.2 [(3 : ℚ), 1, 1] 2 (by decide) (by decide)⟩

/-- C3 (counterexample): with gallery `["alice"]` and probe distance 0.7, the
labelling step of `detect_known_faces` reports `"Unknown"` instead of the
minimum-distance candidate `"alice"`: that matching step applies the 0.6
tolerance threshold of its own, contrary to the claim. -/
theorem bestName_thresholds_at_tolerance :
    bestName ["alice"] [Rat.divInt 7 10] = "Unknown" ∧
    ["alice"].getD (best_match_index [Rat.divInt 7 10]) "" = "alice" ∧
    bestName ["alice"] [Rat.divInt 7 10] ≠ "alice" := by
  refine ⟨by decide, by decide, by decide⟩

/-- C3 (amended): the re-scoring matcher inside `detect_and_mark` reports the
minimum gallery distance unconditionally — `matchDistance` is a member of the
distance list and a lower bound of it, with no threshold applied — while the
provisional labelling `bestName` of `detect_known_faces` does apply the 0.6
tolerance: it reports `"Unknown"` whenever the minimum distance is not
strictly below the tolerance, and the arg-min candidate's label otherwise. -/
theorem matcher_reports_min_unconditionally (names : List String) (dists : List ℚ)
    (h : dists ≠ []) :
    matchDistance dists ∈ dists ∧
    (∀ x ∈ dists, matchDistance dists ≤ x) ∧
    (¬ matchDistance dists < tolerance → bestName names dists = "Unknown") ∧
    (matchDistance dists < tolerance →
      bestName names dists = names.getD (best_match_index dists) "Unknown") := by
  refine ⟨matchDistance_mem dists h, fun x hx => matchDistance_le dists x hx, ?_, ?_⟩
  · intro hn
    simp only [matchDistance] at hn
    rw [bestName, if_neg hn]
  · intro hy
    simp only [matchDistance] at hy
    rw [bestName, if_pos hy]

/-- C3 (witness): instantiation at gallery `["alice"]` and distance list
`[0.7]`, whose minimum is not below the tolerance. -/
theorem matcher_reports_min_unconditionally_witness :
    matchDistance [Rat.divInt 7 10] ∈ [Rat.divInt 7 10] ∧
    bestName ["alice"] [Rat.divInt 7 10] = "Unknown" := by
  have h := matcher_reports_min_unconditionally ["alice"] [Rat.divInt 7 10] (by simp)
  exact ⟨h.1, h.2.2.1 (by decide)⟩

/-- C2: a run in which every frame read succeeds but no frame ever yields a
face whose provisional label equals the claimed identity performs exactly
`maxRetries` frame reads, and terminates with the not-recognized failure:
success is `false`, the message is the fixed generic string (no confidence
in it), and no sleep, photo, mark or other callback is produced. -/
theorem run_not_recognized_exact_retries (cfg : Config)
    (frames : Nat → Option (List Face))
    (h : ∀ i, i < cfg.maxRetries → ∃ fs, frames i = some fs ∧
      ∀ f ∈ fs, bestName cfg.galleryNames f.dists ≠ cfg.studentName) :
    detect_and_mark cfg true frames =
      ((false, notRecognizedMsg),
        ⟨cfg.maxRetries, 0, 0, [], [(false, notRecognizedMsg)]⟩) := by
  rw [detect_and_mark, if_pos rfl]
  rw [detectLoop_no_match cfg frames cfg.maxRetries 0 initState
    (fun i h1 h2 => h i (by omega))]
  simp [initState, addCall]

/-- C2 (witness): gallery `["alice"]`, claimed identity `"alice"`, three
retries, and a frame source that always succeeds but never shows a face. -/
theorem run_not_recognized_exact_retries_witness :
    detect_and_mark ⟨"s1", "alice", ["alice"], 3⟩ true (fun _ => some []) =
      ((false, notRecognizedMsg), ⟨3, 0, 0, [], [(false, notRecognizedMsg)]⟩) :=
  run_not_recognized_exact_retries ⟨"s1", "alice", ["alice"], 3⟩ (fun _ => some [])
    (fun i _ => ⟨[], rfl, by simp⟩)

/-- C5: if the frame read of the current attempt fails, the run terminates
immediately with the capture-failure outcome: success `false`, the fixed
capture message — distinct from the not-recognized, low-confidence, retry and
pose messages — exactly one additional frame read is performed, and no further
attempt, sleep, photo or mark happens. -/
theorem capture_failure_terminates_immediately (cfg : Config)
    (frames : Nat → Option (List Face)) (remaining attempt : Nat) (st : RunState)
    (hr : remaining ≠ 0) (h : frames attempt = none) :
    detectLoop cfg frames remaining attempt st =
      ((false, captureFailMsg),
        { st with reads := st.reads + 1,
                  calls := st.calls ++ [(false, captureFailMsg)] }) ∧
    captureFailMsg ≠ notRecognizedMsg ∧
    (∀ (c : ℤ) (a m : Nat), retryMsg c a m ≠ captureFailMsg) ∧
    (∀ c m : ℤ, lowConfFinalMsg c m ≠ captureFailMsg) ∧
    (∀ a m : Nat, poseMsg a m ≠ captureFailMsg) := by
  obtain ⟨r, rfl⟩ : ∃ r, remaining = r + 1 := ⟨remaining - 1, by omega⟩
  refine ⟨?_, captureFailMsg_ne_notRecognizedMsg, retryMsg_ne_captureFailMsg,
    lowConfFinalMsg_ne_captureFailMsg, poseMsg_ne_captureFailMsg⟩
  simp [detectLoop, h, addCall]

/-- C5 (witness): a frame source that fails on the very first read, with the
full retry budget still available. -/
theorem capture_failure_terminates_immediately_witness :
    detectLoop ⟨"s1", "alice", ["alice"], 3⟩ (fun _ => none) 3 0 initState =
      ((false, captureFailMsg), ⟨1, 0, 0, [], [(false, captureFailMsg)]⟩) ∧
    captureFailMsg ≠ notRecognizedMsg := by
  have h := capture_failure_terminates_immediately ⟨"s1", "alice", ["alice"], 3⟩
    (fun _ => none) 3 0 initState (by decide) rfl
  exact ⟨h.1, h.2.1⟩

/-- C4: for an attempt whose single detected face carries the claimed
identity's provisional label, has adequate eye landmarks, and scores below
the 50 threshold: while attempts remain the engine records exactly one sleep
of the fixed unit, emits the retry callback, and falls through to the next
attempt of the loop; when no attempts remain the run terminates with the
low-confidence failure, whose message contains the final confidence, the
configured minimum 50, and the no-more-retries statement. -/
theorem low_confidence_backoff_and_exhaustion (cfg : Config) (attempt : Nat)
    (f : Face) (st : RunState) (lm : Landmarks)
    (hname : bestName cfg.galleryNames f.dists = cfg.studentName)
    (hlm : f.landmarks = some lm)
    (heyes : ¬(lm.leftEye < 6 ∨ lm.rightEye < 6))
    (hconf : ¬ minConfidence ≤ confidence (matchDistance f.dists)) :
    (attempt < cfg.maxRetries - 1 →
      processFrame cfg attempt [f] st =
        .next { st with
          sleeps := st.sleeps + 1,
          calls := st.calls ++
            [(false, retryMsg (confidence (matchDistance f.dists)) attempt
                cfg.maxRetries)] }) ∧
    (∀ (frames : Nat → Option (List Face)) (r : Nat),
      frames attempt = some [f] → attempt < cfg.maxRetries - 1 →
      detectLoop cfg frames (r + 1) attempt st =
        detectLoop cfg frames r (attempt + 1)
          { st with
            reads := st.reads + 1,
            sleeps := st.sleeps + 1,
            calls := st.calls ++
              [(false, retryMsg (confidence (matchDistance f.dists)) attempt
                  cfg.maxRetries)] }) ∧
    (¬ attempt < cfg.maxRetries - 1 →
      processFrame cfg attempt [f] st =
        .done false (lowConfFinalMsg (confidence (matchDistance f.dists)) minConfidence)
          (addCall st false
            (lowConfFinalMsg (confidence (matchDistance f.dists)) minConfidence)) ∧
      containsStr (lowConfFinalMsg (confidence (matchDistance f.dists)) minConfidence)
        (toString (confidence (matchDistance f.dists))) ∧
      containsStr (lowConfFinalMsg (confidence (matchDistance f.dists)) minConfidence)
        (toString minConfidence) ∧
      containsStr (lowConfFinalMsg (confidence (matchDistance f.dists)) minConfidence)
        "No more retries.") := by
  have hretry : ∀ st' : RunState, attempt < cfg.maxRetries - 1 →
      processFrame cfg attempt [f] st' =
        .next { st' with
          sleeps := st'.sleeps + 1,
          calls := st'.calls ++
            [(false, retryMsg (confidence (matchDistance f.dists)) attempt
                cfg.maxRetries)] } := by
    intro st' ha
    rw [processFrame_single cfg attempt f st' hname,
      gateFace_of_retry cfg attempt f st' lm hlm heyes hconf ha]
    simp [addCall]
  refine ⟨hretry st, ?_, ?_⟩
  · intro frames r hframe ha
    simp only [detectLoop, hframe, hretry { st with reads := st.reads + 1 } ha]
  · intro ha
    refine ⟨?_, lowConfFinalMsg_contains_conf _ _, lowConfFinalMsg_contains_min _ _,
      lowConfFinalMsg_contains_noRetries _ _⟩
    rw [processFrame_single cfg attempt f st hname,
      gateFace_of_exhaust cfg attempt f st lm hlm heyes hconf ha]

/-- C4 (witness): distance 0.55 (confidence 45, below 50) against gallery
`["alice"]`; attempt 0 of 3 sleeps once and advances, attempt 2 of 3
terminates with the low-confidence message. -/
theorem low_confidence_backoff_and_exhaustion_witness :
    processFrame ⟨"s1", "alice", ["alice"], 3⟩ 0
        [⟨[Rat.divInt 55 100], some ⟨6, 6⟩⟩] initState =
      .next ⟨0, 1, 0, [], [(false, retryMsg 45 0 3)]⟩ ∧
    processFrame ⟨"s1", "alice", ["alice"], 3⟩ 2
        [⟨[Rat.divInt 55 100], some ⟨6, 6⟩⟩] initState =
      .done false (lowConfFinalMsg 45 50)
        (addCall initState false (lowConfFinalMsg 45 50)) := by
  have h1 := low_confidence_backoff_and_exhaustion ⟨"s1", "alice", ["alice"], 3⟩ 0
    ⟨[Rat.divInt 55 100], some ⟨6, 6⟩⟩ initState ⟨6, 6⟩ (by decide) rfl (by decide)
    (by with_unfolding_all decide)
  have h2 := low_confidence_backoff_and_exhaustion ⟨"s1", "alice", ["alice"], 3⟩ 2
    ⟨[Rat.divInt 55 100], some ⟨6, 6⟩⟩ initState ⟨6, 6⟩ (by decide) rfl (by decide)
    (by with_unfolding_all decide)
  have hc : confidence (matchDistance [Rat.divInt 55 100]) = 45 := by
    with_unfolding_all decide
  constructor
  · have hstep := h1.1 (by decide)
    rw [hstep, hc]
    simp [initState, addCall]
  · have hstep := (h2.2.2 (by decide)).1
    rw [hstep, hc]
    simp [initState, addCall, minConfidence]

/-- C6 (counterexample): on a matched face whose landmark groups are entirely
missing, the attempt is skipped silently — no callback message at all is
recorded (the run state is unchanged), contradicting the claim that every
pose-invalid attempt produces a message with the attempt index and the retry
budget. -/
theorem missing_landmarks_silent_skip :
    processFrame ⟨"s1", "alice", ["alice"], 3⟩ 0
        [⟨[Rat.divInt 1 2], none⟩] initState = .next initState ∧
    bestName ["alice"] [Rat.divInt 1 2] = "alice" ∧
    initState.calls = [] := by
  refine ⟨?_, by decide, rfl⟩
  rw [processFrame_single ⟨"s1", "alice", ["alice"], 3⟩ 0
    ⟨[Rat.divInt 1 2], none⟩ initState (by decide)]
  exact gateFace_of_no_landmarks _ _ _ _ rfl

/-- C6 (amended): for a single matched face, when its landmark groups are
entirely missing the attempt is skipped silently — no message, no sleep — and
the engine advances to the next attempt; when landmarks are present but an
eye group has fewer than 6 points, exactly one pose callback is recorded
whose message contains the 1-based attempt index and the total retry budget,
no backoff sleep is taken, and the engine advances to the next attempt. -/
theorem pose_invalid_no_backoff (cfg : Config) (attempt : Nat) (f : Face)
    (st : RunState)
    (hname : bestName cfg.galleryNames f.dists = cfg.studentName) :
    (f.landmarks = none → processFrame cfg attempt [f] st = .next st) ∧
    (∀ lm : Landmarks, f.landmarks = some lm →
      lm.leftEye < 6 ∨ lm.rightEye < 6 →
      processFrame cfg attempt [f] st =
        .next (addCall st false (poseMsg attempt cfg.maxRetries)) ∧
      (addCall st false (poseMsg attempt cfg.maxRetries)).sleeps = st.sleeps ∧
      containsStr (poseMsg attempt cfg.maxRetries) (toString (attempt + 1)) ∧
      containsStr (poseMsg attempt cfg.maxRetries) (toString cfg.maxRetries)) := by
  constructor
  · intro hn
    rw [processFrame_single cfg attempt f st hname]
    exact gateFace_of_no_landmarks cfg attempt f st hn
  · intro lm hlm he
    refine ⟨?_, rfl, poseMsg_contains_attempt _ _, poseMsg_contains_budget _ _⟩
    rw [processFrame_single cfg attempt f st hname]
    exact gateFace_of_pose cfg attempt f st lm hlm he

/-- C6 (witness): a matched face with a 5-point left eye triggers the pose
callback with attempt index 1 of budget 3 and no sleep. -/
theorem pose_invalid_no_backoff_witness :
    processFrame ⟨"s1", "alice", ["alice"], 3⟩ 0
        [⟨[Rat.divInt 1 2], some ⟨5, 6⟩⟩] initState =
      .next (addCall initState false (poseMsg 0 3)) ∧
    (addCall initState false (poseMsg 0 3)).sleeps = initState.sleeps := by
  have h := (pose_invalid_no_backoff ⟨"s1", "alice", ["alice"], 3⟩ 0
    ⟨[Rat.divInt 1 2], some ⟨5, 6⟩⟩ initState (by decide)).2 ⟨5, 6⟩ rfl (by decide)
  exact ⟨h.1, h.2.1⟩

/-- C7: every run of `detect_and_mark` produces at most one attendance mark
and at most one evidence photo; for a face passing the landmark check, the
gate accepts exactly when the confidence is at least the threshold (equality
accepted), in which case it terminates the run at once with one new mark, one
new photo, and a success message containing the confidence and the 1-based
attempt number; when the confidence is below the threshold no mark or photo
is produced by that evaluation. -/
theorem single_mark_accept_iff_threshold :
    (∀ (cfg : Config) (capOpened : Bool) (frames : Nat → Option (List Face)),
      (detect_and_mark cfg capOpened frames).2.marks.length ≤ 1 ∧
      (detect_and_mark cfg capOpened frames).2.photos ≤ 1) ∧
    (∀ (cfg : Config) (attempt : Nat) (f : Face) (st : RunState) (lm : Landmarks),
      f.landmarks = some lm → ¬(lm.leftEye < 6 ∨ lm.rightEye < 6) →
      ((minConfidence ≤ confidence (matchDistance f.dists) →
        gateFace cfg attempt f st =
          .done true
            (successMsg cfg.studentName (confidence (matchDistance f.dists)) attempt)
            { st with
              photos := st.photos + 1,
              marks := st.marks ++
                [(cfg.studentId, cfg.studentName, confidence (matchDistance f.dists))],
              calls := st.calls ++
                [(true, successMsg cfg.studentName
                    (confidence (matchDistance f.dists)) attempt)] } ∧
        containsStr
          (successMsg cfg.studentName (confidence (matchDistance f.dists)) attempt)
          (toString (confidence (matchDistance f.dists))) ∧
        containsStr
          (successMsg cfg.studentName (confidence (matchDistance f.dists)) attempt)
          (toString (attempt + 1))) ∧
       (¬ minConfidence ≤ confidence (matchDistance f.dists) →
        (gateFace cfg attempt f st).state.marks = st.marks ∧
        (gateFace cfg attempt f st).state.photos = st.photos))) := by
  constructor
  · intro cfg capOpened frames
    cases capOpened with
    | false => simp [detect_and_mark, addCall, initState]
    | true =>
      rw [detect_and_mark, if_pos rfl]
      have h := detectLoop_state_le cfg frames cfg.maxRetries 0 initState
      simpa [initState] using h
  · intro cfg attempt f st lm hlm heyes
    constructor
    · intro hc
      refine ⟨?_, successMsg_contains_conf _ _ _, successMsg_contains_attempt _ _ _⟩
      rw [gateFace_of_accept cfg attempt f st lm hlm heyes hc]
      simp [addCall]
    · intro hc
      by_cases ha : attempt < cfg.maxRetries - 1
      · rw [gateFace_of_retry cfg attempt f st lm hlm heyes hc ha]
        simp [StepOut.state, addCall]
      · rw [gateFace_of_exhaust cfg attempt f st lm hlm heyes hc ha]
        simp [StepOut.state, addCall]

/-- C7 (witness): a run whose only face sits exactly at the threshold
(distance 0.5, confidence 50) is accepted, and the run-level bound holds on
that run; the gate equality is instantiated at that face. -/
theorem single_mark_accept_iff_threshold_witness :
    (detect_and_mark ⟨"s1", "alice", ["alice"], 3⟩ true
        (fun _ => some [⟨[Rat.divInt 1 2], some ⟨6, 6⟩⟩])).2.marks.length ≤ 1 ∧
    gateFace ⟨"s1", "alice", ["alice"], 3⟩ 0
        ⟨[Rat.divInt 1 2], some ⟨6, 6⟩⟩ initState =
      .done true (successMsg "alice" 50 0)
        ⟨0, 0, 1, [("s1", "alice", 50)], [(true, successMsg "alice" 50 0)]⟩ := by
  have h := single_mark_accept_iff_threshold
  constructor
  · exact (h.1 ⟨"s1", "alice", ["alice"], 3⟩ true
      (fun _ => some [⟨[Rat.divInt 1 2], some ⟨6, 6⟩⟩])).1
  · have hc : confidence (matchDistance [Rat.divInt 1 2]) = 50 := by
      with_unfolding_all decide
    have h2 := ((h.2 ⟨"s1", "alice", ["alice"], 3⟩ 0
      ⟨[Rat.divInt 1 2], some ⟨6, 6⟩⟩ initState ⟨6, 6⟩ rfl (by decide)).1
      (by rw [hc]; decide)).1
    rw [hc] at h2
    rw [h2]
    simp [initState]

/-- C10: inside a frame, once some provisional name equals the claimed
identity, the inner guard compares that outer name rather than each face's
own label, so the gate runs on every detected face in index order — the scan
is equal to the unguarded scan of all faces; consequently a run can be
accepted, and its confidence recorded, on the basis of a face whose own
provisional label (here `"bob"`) differs from the claimed identity
(`"alice"`): the concrete two-face run below is accepted with the second
face's confidence 90. -/
theorem gate_applied_to_every_face :
    (∀ (cfg : Config) (name : String) (attempt : Nat) (faces : List Face)
      (st : RunState), name = cfg.studentName →
      scanFaces cfg name attempt faces st = gateAll cfg attempt faces st) ∧
    detect_and_mark ⟨"s1", "alice", ["alice", "bob"], 3⟩ true
        (fun _ => some
          [⟨[Rat.divInt 55 100, Rat.divInt 9 10], some ⟨6, 6⟩⟩,
           ⟨[Rat.divInt 9 10, Rat.divInt 1 10], some ⟨6, 6⟩⟩]) =
      ((true, successMsg "alice" 90 0),
        ⟨1, 1, 1, [("s1", "alice", 90)],
          [(false, retryMsg 45 0 3), (true, successMsg "alice" 90 0)]⟩) ∧
    bestName ["alice", "bob"] [Rat.divInt 9 10, Rat.divInt 1 10] = "bob" ∧
    ("bob" : String) ≠ "alice" := by
  refine ⟨?_, ?_, by decide, by decide⟩
  · intro cfg name attempt faces st hname
    induction faces generalizing st with
    | nil => rfl
    | cons f rest ih =>
      simp only [scanFaces, gateAll, if_pos hname]
      cases gateFace cfg attempt f st with
      | done s m st' => rfl
      | next st' => exact ih st'
  · with_unfolding_all decide

/-- C10 (witness): instantiation of the guard-vacuity part at a concrete
frame. -/
theorem gate_applied_to_every_face_witness :
    scanFaces ⟨"s1", "alice", ["alice"], 3⟩ "alice" 0
        [⟨[Rat.divInt 1 2], none⟩] initState =
      gateAll ⟨"s1", "alice", ["alice"], 3⟩ 0 [⟨[Rat.divInt 1 2], none⟩] initState :=
  gate_applied_to_every_face.1 ⟨"s1", "alice", ["alice"], 3⟩ "alice" 0
    [⟨[Rat.divInt 1 2], none⟩] initState rfl
